import Mathlib

/-!
Shallow embedding of `go/sgauth/default.go` from the oauth2l repository:
Application Default Credentials (ADC) resolution.

The Go code reads ambient process state (environment variables, the
filesystem, two process-wide App Engine hooks, and the GCE metadata
service).  That ambient state is made explicit here as a `World` value,
and every function of `default.go` is translated as a pure function of
the `World` (and a `Ctx` modelling the Go `context.Context` argument
that the source threads through its calls).

Collaborator code that is not part of `default.go` (the
`credentials.File` document type and its `TokenSource` dispatch, the
App Engine token-source constructor, and Go's `encoding/json`
unmarshalling) is modelled from the spec; each such definition carries a
doc comment saying so.
-/

namespace Sgauth

/-- Model of Go's `context.Context` as it matters to `default.go`: the only
observable the spec talks about is whether the context has been cancelled.
Note: none of the I/O primitives used by `default.go`'s probes
(`os.Getenv`, `ioutil.ReadFile` at line 133, `metadata.OnGCE()` /
`metadata.ProjectID()` at lines 119-120) take a context argument, so the
embedded functions below receive `ctx` exactly where the source passes it
and, like the source's probes, never consult `cancelled`. -/
structure Ctx where
  cancelled : Bool
deriving DecidableEq

/-- Error returned by `ioutil.ReadFile`: either the `fs.ErrNotExist` kind
(recognised by `os.IsNotExist`) or any other I/O error. -/
inductive IOErr where
  | notExist : IOErr
  | other : String → IOErr
deriving DecidableEq

/-- The Go error string of a file-read error. -/
def IOErr.message : IOErr → String
  | IOErr.notExist => "no such file or directory"
  | IOErr.other m => m

/-- A parsed credentials document.  Modelled from the spec: the JSON
document has "fields at least `{\x7b"type": <string>, "project_id": <string>,
...kind-specific fields\x7d`"; the kind-specific fields are a private key and
client email for a service account, and a refresh token plus client
id/secret for a user document.  A field is `none` when absent from the
document. -/
structure JSONDoc where
  type : Option String := none
  project_id : Option String := none
  client_email : Option String := none
  private_key : Option String := none
  client_id : Option String := none
  client_secret : Option String := none
  refresh_token : Option String := none
deriving DecidableEq

/-- A Go `[]byte` value holding a would-be JSON credentials document:
either bytes that decode to a document, or malformed bytes on which
`json.Unmarshal` fails. -/
inductive JSONData where
  | doc : JSONDoc → JSONData
  | malformed : String → JSONData
deriving DecidableEq

/-- Model of the `credentials.File` struct (package `go/sgauth/credentials`):
the unmarshalling target, with Go string fields whose zero value `""`
stands for an absent JSON field.  (`Typ` renders the Go field `Type`,
which is a reserved word here.) -/
structure File where
  Typ : String := ""
  ProjectID : String := ""
  ClientEmail : String := ""
  PrivateKey : String := ""
  ClientID : String := ""
  ClientSecret : String := ""
  RefreshToken : String := ""
deriving DecidableEq

/-- Resolution error, covering every error `default.go` can return.
`wrapped` is the flat message produced by `fmt.Errorf` with `%v` verbs
(the source never uses `%w`, so wrapping loses the inner error's
identity, exactly as modelled). -/
inductive Err where
  | ioFailure : IOErr → Err
  | jsonError : String → Err
  | unknownType : String → Err
  | wrapped : String → Err
  | notFound : String → Err
deriving DecidableEq

/-- `os.IsNotExist` applied to an error arising inside the chain: true
exactly on a file-read does-not-exist error. -/
def Err.isNotExist : Err → Bool
  | Err.ioFailure IOErr.notExist => true
  | _ => false

/-- Whether this is the terminal could-not-find-default-credentials error. -/
def Err.isNotFound : Err → Bool
  | Err.notFound _ => true
  | _ => false

/-- The Go error string. -/
def Err.message : Err → String
  | Err.ioFailure e => e.message
  | Err.jsonError m => m
  | Err.unknownType t => "sgauth: unknown credential type: " ++ t
  | Err.wrapped m => m
  | Err.notFound m => m

/-- Model of Go's `json.Unmarshal(jsonData, &f)` for the `File` struct:
well-formed documents decode with absent fields becoming the zero value
`""`; malformed bytes yield a syntax error. -/
def unmarshalFile : JSONData → Except Err File
  | JSONData.doc d =>
      Except.ok { Typ := d.type.getD "", ProjectID := d.project_id.getD "",
                  ClientEmail := d.client_email.getD "",
                  PrivateKey := d.private_key.getD "",
                  ClientID := d.client_id.getD "",
                  ClientSecret := d.client_secret.getD "",
                  RefreshToken := d.refresh_token.getD "" }
  | JSONData.malformed raw =>
      Except.error (Err.jsonError ("invalid character in " ++ raw))

/-- The token source a resolution produces, recording which probe/kind
built it.  Token fetching and refresh are out-of-scope collaborators, so
a token source is represented by its construction data only. -/
inductive TokenSource where
  | serviceAccount : File → List String → TokenSource
  | oauthJSON : File → List String → String → TokenSource
  | appEngine : String → TokenSource
  | compute : String → TokenSource
deriving DecidableEq

/-- The consent-flow callback `func(string) (string, error)` from
`Settings.OAuthFlowHandler`.  Its behaviour belongs to the out-of-scope
consent collaborator; `default.go` only passes it through, so it is
modelled as an opaque atom (present/absent with a tag). -/
abbrev Handler := Option String

/-- Modelled from the spec: `credentials.File.TokenSource` (package
`go/sgauth/credentials`, not under `src/`).  Dispatch on the `type`
discriminator: a service-account document builds a signed-JWT-capable
source, a user/authorized-user document builds an OAuth2 refresh-token
source (driving the consent flow via `handler` is collaborator
behaviour), and an unknown or missing discriminator is an error, never a
silent default. -/
def File.tokenSource (f : File) (ctx : Ctx) (scopes : List String)
    (handler : Handler) (state : String) : Except Err TokenSource :=
  if f.Typ = "service_account" then
    Except.ok (TokenSource.serviceAccount f scopes)
  else if f.Typ = "authorized_user" then
    Except.ok (TokenSource.oauthJSON f scopes state)
  else
    Except.error (Err.unknownType f.Typ)

/-- The resolved `credentials.Credentials` value.  The Go struct's
`JSON []byte` field is `nil` (here `none`) when the credential came from
a non-document source. -/
structure Credentials where
  ProjectID : String
  TokenSource : Sgauth.TokenSource
  JSON : Option JSONData
deriving DecidableEq

/-- A Go string holding an optional raw credentials document
(`Settings.CredentialsJSON`): the empty string, or non-empty bytes. -/
inductive CredString where
  | empty : CredString
  | nonEmpty : JSONData → CredString
deriving DecidableEq

/-- The `sgauth.Settings` configuration passed into every resolution call
(only the fields `default.go` reads). -/
structure Settings where
  Scope : String := ""
  Audience : String := ""
  CredentialsJSON : CredString := CredString.empty
  OAuthFlowHandler : Handler := none
  State : String := ""
deriving DecidableEq

/-- The ambient process state `default.go` reads, made explicit:
`env` is `os.Getenv` (returning `""` for unset variables), `readFile` is
`ioutil.ReadFile`, `goos` is `runtime.GOOS`, `userCurrent` is
`os/user.Current()` reduced to the home directory it yields,
`appengineTokenFunc` / `appengineAppIDFunc` are the two process-wide
App Engine hooks (`none` models a nil Go function value; the app-id hook
is reduced to the app id it returns), `appengineFlex` is the flex-runtime
flag, `onGCE` is `metadata.OnGCE()`, and `metadataProjectID` is the
`(string, error)` pair returned by `metadata.ProjectID()`. -/
structure World where
  env : String → String
  readFile : String → Except IOErr JSONData
  goos : String
  userCurrent : Except String String
  appengineTokenFunc : Option Unit
  appengineAppIDFunc : Option String
  appengineFlex : Bool
  onGCE : Bool
  metadataProjectID : String × Option String

/-- The path separator `path/filepath` uses on the given GOOS. -/
def pathSep (goos : String) : String :=
  if goos = "windows" then "\\" else "/"

/-- Model of `filepath.Join`: drop empty elements and interleave the
separator.  (The subsequent `Clean` pass of the real `Join` is not
modelled; no claim depends on path normalisation.) -/
def filepathJoin (sep : String) (elems : List String) : String :=
  String.intercalate sep (elems.filter (fun e => e ≠ ""))

/-- `guessUnixHomeDir` (default.go lines 166-176): prefer `$HOME`, else
fall back to `user.Current()`, else the empty string. -/
def guessUnixHomeDir (w : World) : String :=
  if w.env "HOME" ≠ "" then w.env "HOME"
  else
    match w.userCurrent with
    | Except.ok u => u
    | Except.error _ => ""

/-- `wellKnownFile` (default.go lines 158-164). -/
def wellKnownFile (w : World) : String :=
  let f := "application_default_credentials.json"
  if w.goos = "windows" then
    filepathJoin (pathSep w.goos) [w.env "APPDATA", "gcloud", f]
  else
    filepathJoin (pathSep w.goos) [guessUnixHomeDir w, ".config", "gcloud", f]

/-- Accumulator loop of `splitSpace`: walk the characters, cutting at
every space. -/
def splitSpaceAux : List Char → List Char → List String
  | [], acc => [String.mk acc.reverse]
  | c :: cs, acc =>
    if c = ' ' then String.mk acc.reverse :: splitSpaceAux cs []
    else splitSpaceAux cs (c :: acc)

/-- Model of Go's `strings.Split(s, " ")` as `default.go` applies it to
the scope string: split on every single space, the empty string giving
`[""]`. -/
def splitSpace (s : String) : List String := splitSpaceAux s.data []

/-- `credentialsFromJSON` (default.go lines 141-156): unmarshal the raw
bytes into a `File`, build its token source, and return a `Credentials`
carrying the file's project id and the original raw bytes. -/
def credentialsFromJSON (ctx : Ctx) (jsonData : JSONData) (scopes : List String)
    (handler : Handler) (state : String) : Except Err Credentials :=
  match unmarshalFile jsonData with
  | Except.error e => Except.error e
  | Except.ok f =>
      match f.tokenSource ctx scopes handler state with
      | Except.error e => Except.error e
      | Except.ok ts =>
          Except.ok { ProjectID := f.ProjectID, TokenSource := ts,
                      JSON := some jsonData }

/-- `readCredentialsFile` (default.go lines 132-139): `ioutil.ReadFile`
then `credentialsFromJSON` on the bytes, with the scope string split on
single spaces exactly as `strings.Split(settings.Scope, " ")` does. -/
def readCredentialsFile (ctx : Ctx) (w : World) (filename : String)
    (settings : Settings) : Except Err Credentials :=
  match w.readFile filename with
  | Except.error e => Except.error (Err.ioFailure e)
  | Except.ok b =>
      credentialsFromJSON ctx b (splitSpace settings.Scope)
        settings.OAuthFlowHandler settings.State

/-- The environment variable `applicationDefaultCredentials` consults. -/
def envVarName : String := "GOOGLE_APPLICATION_CREDENTIALS"

/-- The documentation URL named by the terminal error (default.go
line 127). -/
def adcURL : String :=
  "https://developers.google.com/accounts/docs/application-default-credentials"

/-- The terminal error message of default.go line 128. -/
def terminalNotFoundMessage : String :=
  "google: could not find default credentials. See " ++ adcURL ++
    " for more information."

/-- Modelled from the spec together with default.go line 114:
`AppEngineTokenSource(ctx, scope)` (defined in the App Engine build files,
not under `src/`) wraps the managed runtime's token capability for the
requested scope; construction involves no I/O. -/
def AppEngineTokenSource (ctx : Ctx) (scope : String) : TokenSource :=
  TokenSource.appEngine scope

/-- `ComputeTokenSource(account)` as used at default.go line 123: a
metadata-server-backed token source for the given account. -/
def ComputeTokenSource (account : String) : TokenSource :=
  TokenSource.compute account

/-- The third and fourth probes plus the terminal error of
`applicationDefaultCredentials` (default.go lines 110-129), reached when
the first two probes fall through.  In the App Engine branch the source
calls `appengineAppIDFunc(ctx)` guarded only by the nil check on
`appengineTokenFunc`; a nil app-id hook would panic there, so the
`getD ""` default is never the executed case under the spec's invariant
that the two hooks are present together (see `hooksPresentTogether`).
In the GCE branch `id, _ := metadata.ProjectID()` discards the lookup
error. -/
def runtimeAndMetadataProbes (ctx : Ctx) (w : World) (settings : Settings) :
    Except Err Credentials :=
  if w.appengineTokenFunc.isSome && !w.appengineFlex then
    Except.ok { ProjectID := w.appengineAppIDFunc.getD "",
                TokenSource := AppEngineTokenSource ctx settings.Scope,
                JSON := none }
  else if w.onGCE then
    Except.ok { ProjectID := w.metadataProjectID.1,
                TokenSource := ComputeTokenSource "",
                JSON := none }
  else
    Except.error (Err.notFound terminalNotFoundMessage)

/-- `applicationDefaultCredentials` (default.go lines 93-130): the
ordered probe chain.  First the environment variable (read/parse failures
fatal, wrapped with the variable name); second the well-known file
(does-not-exist declines, any other failure fatal, wrapped with the
path); then the managed-runtime and metadata probes. -/
def applicationDefaultCredentials (ctx : Ctx) (w : World)
    (settings : Settings) : Except Err Credentials :=
  if w.env envVarName ≠ "" then
    match readCredentialsFile ctx w (w.env envVarName) settings with
    | Except.error err =>
        Except.error (Err.wrapped
          ("google: error getting credentials using " ++ envVarName ++
            " environment variable: " ++ err.message))
    | Except.ok creds => Except.ok creds
  else
    match readCredentialsFile ctx w (wellKnownFile w) settings with
    | Except.ok creds => Except.ok creds
    | Except.error err =>
        if !err.isNotExist then
          Except.error (Err.wrapped
            ("google: error getting credentials using well-known file (" ++
              wellKnownFile w ++ "): " ++ err.message))
        else
          runtimeAndMetadataProbes ctx w settings

/-- `findJSONCredentials` (default.go lines 82-91): a non-empty explicit
`CredentialsJSON` is parsed directly; otherwise the ADC chain runs. -/
def findJSONCredentials (ctx : Ctx) (w : World) (settings : Settings) :
    Except Err Credentials :=
  match settings.CredentialsJSON with
  | CredString.nonEmpty data =>
      credentialsFromJSON ctx data (splitSpace settings.Scope)
        settings.OAuthFlowHandler settings.State
  | CredString.empty => applicationDefaultCredentials ctx w settings

/-- Modelled from the spec: the two App Engine hooks are "present only
when running under that runtime; nil otherwise" (their initialisation
lives in the App Engine build files, not under `src/`), so either both
are set or both are nil. -/
def hooksPresentTogether (w : World) : Prop :=
  w.appengineTokenFunc.isSome = w.appengineAppIDFunc.isSome

/-- Whether a run of `applicationDefaultCredentials` invokes the
`appengineAppIDFunc` hook: execution reaches default.go line 112 exactly
when the environment variable is unset, the well-known-file probe
declines with a does-not-exist error, the token hook is non-nil and the
flex flag is off.  This transcribes the guards on the path to the App
Engine branch. -/
def appIDHookInvoked (ctx : Ctx) (w : World) (s : Settings) : Bool :=
  (w.env envVarName = "") &&
  (match readCredentialsFile ctx w (wellKnownFile w) s with
   | Except.ok _ => false
   | Except.error e => e.isNotExist) &&
  w.appengineTokenFunc.isSome && !w.appengineFlex

/-! Concrete sample values used to exercise the definitions. -/

/-- The spec's sample service-account document
`{"type":"service_account","project_id":"p1","client_email":"a@b", ...}`. -/
def sampleDoc : JSONDoc :=
  { type := some "service_account", project_id := some "p1",
    client_email := some "a@b", private_key := some "pk" }

/-- The sample document as raw bytes. -/
def sampleData : JSONData := JSONData.doc sampleDoc

/-- The `File` the sample document unmarshals to. -/
def sampleFile : File :=
  { Typ := "service_account", ProjectID := "p1", ClientEmail := "a@b",
    PrivateKey := "pk" }

/-- The credentials the sample document resolves to under scope
`"scope-a"`. -/
def sampleCreds : Credentials :=
  { ProjectID := "p1",
    TokenSource := TokenSource.serviceAccount sampleFile ["scope-a"],
    JSON := some sampleData }

/-- A world with nothing configured: no environment variables, no files,
no hooks, no metadata service. -/
def emptyWorld : World :=
  { env := fun _ => "",
    readFile := fun _ => Except.error IOErr.notExist,
    goos := "linux",
    userCurrent := Except.error "user: lookup failed",
    appengineTokenFunc := none,
    appengineAppIDFunc := none,
    appengineFlex := false,
    onGCE := false,
    metadataProjectID := ("", some "metadata: project id lookup failed") }

/-- A world where the environment variable points at a readable
service-account document. -/
def envSetWorld : World :=
  { emptyWorld with
    env := fun v => if v = envVarName then "/creds.json" else "",
    readFile := fun fn =>
      if fn = "/creds.json" then Except.ok sampleData
      else Except.error IOErr.notExist }

/-- A world where the environment variable points at a missing file. -/
def envBadWorld : World :=
  { emptyWorld with
    env := fun v => if v = envVarName then "/nope" else "" }

/-- A world where reading any file fails with a non-not-exist error. -/
def ioFailWorld : World :=
  { emptyWorld with
    readFile := fun _ => Except.error (IOErr.other "permission denied") }

/-- A world under the managed runtime: both App Engine hooks present. -/
def gaeWorld : World :=
  { emptyWorld with
    appengineTokenFunc := some (),
    appengineAppIDFunc := some "gae-app" }

/-- The managed-runtime world on the flexible variant. -/
def gaeFlexWorld : World :=
  { gaeWorld with appengineFlex := true }

/-- Settings with every field left at its zero value. -/
def defaultSettings : Settings := {}

/-! Helper lemmas shared by the claim theorems. -/

/-- String append is associative (needed to exhibit substrings of error
messages). -/
theorem strAppendAssoc (a b c : String) : a ++ b ++ c = a ++ (b ++ c) := by
  cases a with
  | mk la =>
    cases b with
    | mk lb =>
      cases c with
      | mk lc =>
        show String.mk (la ++ lb ++ lc) = String.mk (la ++ (lb ++ lc))
        rw [List.append_assoc]

/-- `readCredentialsFile` consults the world only through the read of the
given file. -/
theorem readCredentialsFile_congr (ctx : Ctx) (w w' : World) (fn : String)
    (s : Settings) (h : w'.readFile fn = w.readFile fn) :
    readCredentialsFile ctx w' fn s = readCredentialsFile ctx w fn s := by
  unfold readCredentialsFile
  rw [h]

/-- With the environment variable unset, the chain is the well-known-file
probe followed by the later probes. -/
theorem adc_env_unset_eq (ctx : Ctx) (w : World) (s : Settings)
    (hunset : w.env envVarName = "") :
    applicationDefaultCredentials ctx w s =
      match readCredentialsFile ctx w (wellKnownFile w) s with
      | Except.ok creds => Except.ok creds
      | Except.error err =>
          if !err.isNotExist then
            Except.error (Err.wrapped
              ("google: error getting credentials using well-known file (" ++
                wellKnownFile w ++ "): " ++ err.message))
          else runtimeAndMetadataProbes ctx w s := by
  unfold applicationDefaultCredentials
  rw [hunset]
  simp

/-- A does-not-exist decline of the first two probes lands in the
runtime/metadata probes. -/
theorem adc_fallthrough (ctx : Ctx) (w : World) (s : Settings) (e : Err)
    (hunset : w.env envVarName = "")
    (hread : readCredentialsFile ctx w (wellKnownFile w) s = Except.error e)
    (hne : e.isNotExist = true) :
    applicationDefaultCredentials ctx w s = runtimeAndMetadataProbes ctx w s := by
  rw [adc_env_unset_eq ctx w s hunset, hread]
  simp [hne]

/-- With the environment variable set non-empty, the chain is exactly the
environment-variable probe. -/
theorem adc_env_set_eq (ctx : Ctx) (w : World) (s : Settings)
    (hset : w.env envVarName ≠ "") :
    applicationDefaultCredentials ctx w s =
      match readCredentialsFile ctx w (w.env envVarName) s with
      | Except.error err =>
          Except.error (Err.wrapped
            ("google: error getting credentials using " ++ envVarName ++
              " environment variable: " ++ err.message))
      | Except.ok creds => Except.ok creds := by
  unfold applicationDefaultCredentials
  rw [if_pos hset]

/-! The claims. -/

/-- C1: for every `Settings` with a non-empty `credentialsJSON`,
`findJSONCredentials` parses that document directly, and its result is
independent of the ambient world (environment, filesystem, hooks,
metadata): two runs differing only in the world return the same
result. -/
theorem c1_explicit_json_wins (ctx : Ctx) (w w' : World) (s : Settings)
    (d : JSONData) (h : s.CredentialsJSON = CredString.nonEmpty d) :
    findJSONCredentials ctx w s =
      credentialsFromJSON ctx d (splitSpace s.Scope)
        s.OAuthFlowHandler s.State ∧
    findJSONCredentials ctx w s = findJSONCredentials ctx w' s := by
  unfold findJSONCredentials
  rw [h]
  exact ⟨rfl, rfl⟩

/-- Settings carrying the sample document explicitly. -/
def c1Settings : Settings :=
  { Scope := "scope-a", CredentialsJSON := CredString.nonEmpty sampleData }

/-- Witness for C1: explicit settings resolved against the empty world and
against a world with the environment variable set give the direct parse,
and the same result. -/
theorem c1_explicit_json_wins_witness :
    findJSONCredentials (Ctx.mk false) emptyWorld c1Settings =
      credentialsFromJSON (Ctx.mk false) sampleData
        (splitSpace c1Settings.Scope) c1Settings.OAuthFlowHandler
        c1Settings.State ∧
    findJSONCredentials (Ctx.mk false) emptyWorld c1Settings =
      findJSONCredentials (Ctx.mk false) envSetWorld c1Settings :=
  c1_explicit_json_wins (Ctx.mk false) emptyWorld envSetWorld c1Settings
    sampleData rfl

/-- C2: when the environment variable is set non-empty and reading or
parsing the file it names fails, `applicationDefaultCredentials` returns
a fatal error whose message contains the variable's name, and no later
probe is attempted (the outcome depends on the world only through the
variable and the read of the named file). -/
theorem c2_env_probe_failure_is_fatal (ctx : Ctx) (w : World) (s : Settings)
    (e : Err) (hset : w.env envVarName ≠ "")
    (hread : readCredentialsFile ctx w (w.env envVarName) s =
      Except.error e) :
    applicationDefaultCredentials ctx w s =
      Except.error (Err.wrapped
        ("google: error getting credentials using " ++ envVarName ++
          " environment variable: " ++ e.message)) ∧
    (∃ a b, ("google: error getting credentials using " ++ envVarName ++
        " environment variable: " ++ e.message) = a ++ envVarName ++ b) ∧
    (∀ w' : World, w'.env envVarName = w.env envVarName →
      w'.readFile (w.env envVarName) = w.readFile (w.env envVarName) →
      applicationDefaultCredentials ctx w' s =
        applicationDefaultCredentials ctx w s) := by
  refine ⟨?_, ⟨"google: error getting credentials using ",
    " environment variable: " ++ e.message, ?_⟩, ?_⟩
  · rw [adc_env_set_eq ctx w s hset, hread]
  · rw [strAppendAssoc]
  · intro w' henv hrf
    have hset' : w'.env envVarName ≠ "" := by rw [henv]; exact hset
    rw [adc_env_set_eq ctx w' s hset', adc_env_set_eq ctx w s hset, henv,
      readCredentialsFile_congr ctx w w' (w.env envVarName) s hrf]

/-- Witness for C2: pointing the environment variable at a missing file
makes resolution fail fatally with the variable's name in the message,
without later probes. -/
theorem c2_env_probe_failure_is_fatal_witness :
    applicationDefaultCredentials (Ctx.mk false) envBadWorld defaultSettings =
      Except.error (Err.wrapped
        ("google: error getting credentials using " ++ envVarName ++
          " environment variable: " ++
          (Err.ioFailure IOErr.notExist).message)) ∧
    (∃ a b, ("google: error getting credentials using " ++ envVarName ++
        " environment variable: " ++
        (Err.ioFailure IOErr.notExist).message) = a ++ envVarName ++ b) ∧
    (∀ w' : World, w'.env envVarName = envBadWorld.env envVarName →
      w'.readFile (envBadWorld.env envVarName) =
        envBadWorld.readFile (envBadWorld.env envVarName) →
      applicationDefaultCredentials (Ctx.mk false) w' defaultSettings =
        applicationDefaultCredentials (Ctx.mk false) envBadWorld
          defaultSettings) :=
  c2_env_probe_failure_is_fatal (Ctx.mk false) envBadWorld defaultSettings
    (Err.ioFailure IOErr.notExist) (by decide) rfl

/-- C3: with the environment variable unset, a does-not-exist error from
the well-known-file probe falls through to the next probes, while every
other read or parse error is fatal, wrapped with the well-known file's
path. -/
theorem c3_wellknown_decline_or_fatal (ctx : Ctx) (w : World) (s : Settings)
    (e : Err) (hunset : w.env envVarName = "")
    (hread : readCredentialsFile ctx w (wellKnownFile w) s =
      Except.error e) :
    (e.isNotExist = true →
      applicationDefaultCredentials ctx w s =
        runtimeAndMetadataProbes ctx w s) ∧
    (e.isNotExist = false →
      applicationDefaultCredentials ctx w s =
        Except.error (Err.wrapped
          ("google: error getting credentials using well-known file (" ++
            wellKnownFile w ++ "): " ++ e.message)) ∧
      ∃ a b, ("google: error getting credentials using well-known file (" ++
          wellKnownFile w ++ "): " ++ e.message) =
        a ++ wellKnownFile w ++ b) := by
  constructor
  · intro hne
    exact adc_fallthrough ctx w s e hunset hread hne
  · intro hne
    constructor
    · rw [adc_env_unset_eq ctx w s hunset, hread]
      simp [hne]
    · exact ⟨"google: error getting credentials using well-known file (",
        "): " ++ e.message, by rw [strAppendAssoc]⟩

/-- Witness for C3: a permission error on every file read is fatal at the
well-known-file probe, and a does-not-exist error declines (exercised via
the conjunction at a world whose reads all fail non-fatally). -/
theorem c3_wellknown_decline_or_fatal_witness :
    ((Err.ioFailure (IOErr.other "permission denied")).isNotExist = true →
      applicationDefaultCredentials (Ctx.mk false) ioFailWorld
          defaultSettings =
        runtimeAndMetadataProbes (Ctx.mk false) ioFailWorld
          defaultSettings) ∧
    ((Err.ioFailure (IOErr.other "permission denied")).isNotExist = false →
      applicationDefaultCredentials (Ctx.mk false) ioFailWorld
          defaultSettings =
        Except.error (Err.wrapped
          ("google: error getting credentials using well-known file (" ++
            wellKnownFile ioFailWorld ++ "): " ++
            (Err.ioFailure (IOErr.other "permission denied")).message)) ∧
      ∃ a b, ("google: error getting credentials using well-known file (" ++
          wellKnownFile ioFailWorld ++ "): " ++
          (Err.ioFailure (IOErr.other "permission denied")).message) =
        a ++ wellKnownFile ioFailWorld ++ b) :=
  c3_wellknown_decline_or_fatal (Ctx.mk false) ioFailWorld defaultSettings
    (Err.ioFailure (IOErr.other "permission denied")) rfl rfl

/-- C4: with the environment variable unset, the well-known file absent,
the managed-runtime hook nil (or disabled by the flex flag), and the
metadata presence check false, the chain returns the single terminal
error, whose message says default credentials could not be found and
references the documentation URL, and returns no credentials value. -/
theorem c4_exhausted_terminal (ctx : Ctx) (w : World) (s : Settings)
    (hunset : w.env envVarName = "")
    (habsent : w.readFile (wellKnownFile w) = Except.error IOErr.notExist)
    (hhook : w.appengineTokenFunc = none ∨ w.appengineFlex = true)
    (hgce : w.onGCE = false) :
    applicationDefaultCredentials ctx w s =
      Except.error (Err.notFound terminalNotFoundMessage) ∧
    (∃ a b, terminalNotFoundMessage =
      a ++ "could not find default credentials" ++ b) ∧
    (∃ a b, terminalNotFoundMessage = a ++ adcURL ++ b) ∧
    (∀ c : Credentials,
      applicationDefaultCredentials ctx w s ≠ Except.ok c) := by
  have hrcf : readCredentialsFile ctx w (wellKnownFile w) s =
      Except.error (Err.ioFailure IOErr.notExist) := by
    unfold readCredentialsFile
    rw [habsent]
  have hterm : applicationDefaultCredentials ctx w s =
      Except.error (Err.notFound terminalNotFoundMessage) := by
    rw [adc_fallthrough ctx w s (Err.ioFailure IOErr.notExist) hunset hrcf
      rfl]
    unfold runtimeAndMetadataProbes
    rcases hhook with h | h
    · rw [h]
      simp [hgce]
    · rw [h]
      simp [hgce]
  refine ⟨hterm, ⟨"google: ", ". See " ++ adcURL ++ " for more information.",
    by decide⟩, ⟨"google: could not find default credentials. See ",
    " for more information.", by decide⟩, ?_⟩
  intro c hc
  rw [hterm] at hc
  exact Except.noConfusion hc

/-- Witness for C4: the empty world yields exactly the terminal error. -/
theorem c4_exhausted_terminal_witness :
    applicationDefaultCredentials (Ctx.mk false) emptyWorld defaultSettings =
      Except.error (Err.notFound terminalNotFoundMessage) ∧
    (∃ a b, terminalNotFoundMessage =
      a ++ "could not find default credentials" ++ b) ∧
    (∃ a b, terminalNotFoundMessage = a ++ adcURL ++ b) ∧
    (∀ c : Credentials,
      applicationDefaultCredentials (Ctx.mk false) emptyWorld
        defaultSettings ≠ Except.ok c) :=
  c4_exhausted_terminal (Ctx.mk false) emptyWorld defaultSettings rfl rfl
    (Or.inl rfl) rfl

/-- C5: every successful parse by `credentialsFromJSON` returns the input
bytes unchanged in the `JSON` field and the document's `project_id` (the
empty string when the field is absent) in `ProjectID`. -/
theorem c5_roundtrip (ctx : Ctx) (j : JSONData) (scopes : List String)
    (handler : Handler) (state : String) (c : Credentials)
    (h : credentialsFromJSON ctx j scopes handler state = Except.ok c) :
    c.JSON = some j ∧
    ∃ d, j = JSONData.doc d ∧ c.ProjectID = d.project_id.getD "" := by
  cases j with
  | malformed raw =>
    simp [credentialsFromJSON, unmarshalFile] at h
  | doc d =>
    by_cases h1 : d.type.getD "" = "service_account"
    · simp [credentialsFromJSON, unmarshalFile, File.tokenSource, h1] at h
      subst h
      exact ⟨rfl, d, rfl, rfl⟩
    · by_cases h2 : d.type.getD "" = "authorized_user"
      · simp [credentialsFromJSON, unmarshalFile, File.tokenSource, h1,
          h2] at h
        subst h
        exact ⟨rfl, d, rfl, rfl⟩
      · simp [credentialsFromJSON, unmarshalFile, File.tokenSource, h1,
          h2] at h

/-- Witness for C5: the sample document resolves with its bytes preserved
and `ProjectID = "p1"`. -/
theorem c5_roundtrip_witness :
    sampleCreds.JSON = some sampleData ∧
    ∃ d, sampleData = JSONData.doc d ∧
      sampleCreds.ProjectID = d.project_id.getD "" :=
  c5_roundtrip (Ctx.mk false) sampleData ["scope-a"] none "" sampleCreds rfl

/-- C6: a document whose `type` discriminator is missing or names an
unknown kind makes `credentialsFromJSON` fail with a structural error
that is neither a does-not-exist error nor the terminal not-found
error — never a silent default. -/
theorem c6_unknown_discriminator (ctx : Ctx) (d : JSONDoc)
    (scopes : List String) (handler : Handler) (state : String)
    (h1 : d.type.getD "" ≠ "service_account")
    (h2 : d.type.getD "" ≠ "authorized_user") :
    credentialsFromJSON ctx (JSONData.doc d) scopes handler state =
      Except.error (Err.unknownType (d.type.getD "")) ∧
    (Err.unknownType (d.type.getD "")).isNotExist = false ∧
    (Err.unknownType (d.type.getD "")).isNotFound = false := by
  refine ⟨?_, rfl, rfl⟩
  simp [credentialsFromJSON, unmarshalFile, File.tokenSource, h1, h2]

/-- Witness for C6: a document with no `type` field at all fails with the
unknown-discriminator error. -/
theorem c6_unknown_discriminator_witness :
    credentialsFromJSON (Ctx.mk false) (JSONData.doc {}) ["scope-a"] none
        "" =
      Except.error (Err.unknownType ((JSONDoc.type {}).getD "")) ∧
    (Err.unknownType ((JSONDoc.type {}).getD "")).isNotExist = false ∧
    (Err.unknownType ((JSONDoc.type {}).getD "")).isNotFound = false :=
  c6_unknown_discriminator (Ctx.mk false) {} ["scope-a"] none ""
    (by decide) (by decide)

/-- C7 counterexample: with a cancelled context and the environment
variable pointing at a readable document, resolution runs the
environment-variable probe's file I/O to completion and succeeds — it
does not abort and does not return a cancellation error (the source's
probes perform their I/O with `ioutil.ReadFile` and `metadata.OnGCE()`,
neither of which takes the context). -/
theorem c7_cancellation_ignored_counterexample :
    (Ctx.mk true).cancelled = true ∧
    applicationDefaultCredentials (Ctx.mk true) envSetWorld
        { Scope := "scope-a" } =
      Except.ok sampleCreds :=
  ⟨rfl, by rfl⟩

/-- C7 amended: the context is threaded through the calls but the
environment-variable, well-known-file, managed-runtime and metadata
probes never consult it, so resolution returns the same result for a
cancelled context as for a live one — cancellation neither aborts a
probe's I/O nor yields a cancellation error. -/
theorem c7_context_never_consulted (ctx ctx' : Ctx) (w : World)
    (s : Settings) :
    applicationDefaultCredentials ctx w s =
      applicationDefaultCredentials ctx' w s ∧
    findJSONCredentials ctx w s = findJSONCredentials ctx' w s :=
  ⟨rfl, rfl⟩

/-- The well-known path as the specification words it: on Windows the
join of the `APPDATA` environment variable with `gcloud` and the fixed
file name; elsewhere the join of a home directory with `.config`,
`gcloud` and the same file name, where the home directory is `$HOME` when
non-empty, else the platform user lookup's home directory when that
lookup succeeds, else the empty string. -/
def wellKnownFileSpec (w : World) : String :=
  if w.goos = "windows" then
    filepathJoin (pathSep w.goos)
      [w.env "APPDATA", "gcloud", "application_default_credentials.json"]
  else
    filepathJoin (pathSep w.goos)
      [(if w.env "HOME" ≠ "" then w.env "HOME"
        else
          match w.userCurrent with
          | Except.ok u => u
          | Except.error _ => ""),
       ".config", "gcloud", "application_default_credentials.json"]

/-- C8: `wellKnownFile` computes exactly the platform-conditional path
the claim describes; being a total function of the world, it never
fails. -/
theorem c8_well_known_file_matches_spec (w : World) :
    wellKnownFile w = wellKnownFileSpec w := by
  unfold wellKnownFile wellKnownFileSpec guessUnixHomeDir
  rfl

/-- C9: under the spec's invariant that the two App Engine hooks are
present together, whenever a run of the chain invokes the get-app-id
hook, that hook is non-nil, and the run returns the managed-runtime
credentials built from it. -/
theorem c9_app_id_hook_guarded (ctx : Ctx) (w : World) (s : Settings)
    (hcoupled : hooksPresentTogether w)
    (hinv : appIDHookInvoked ctx w s = true) :
    w.appengineAppIDFunc.isSome = true ∧
    applicationDefaultCredentials ctx w s =
      Except.ok { ProjectID := w.appengineAppIDFunc.getD "",
                  TokenSource := AppEngineTokenSource ctx s.Scope,
                  JSON := none } := by
  unfold appIDHookInvoked at hinv
  simp only [Bool.and_eq_true, decide_eq_true_eq] at hinv
  obtain ⟨⟨⟨henv, hwk⟩, htok⟩, hflex⟩ := hinv
  have happid : w.appengineAppIDFunc.isSome = true := by
    unfold hooksPresentTogether at hcoupled
    rw [← hcoupled]
    exact htok
  refine ⟨happid, ?_⟩
  cases hres : readCredentialsFile ctx w (wellKnownFile w) s with
  | ok creds =>
    rw [hres] at hwk
    exact absurd hwk (by simp)
  | error e =>
    rw [hres] at hwk
    rw [adc_fallthrough ctx w s e henv hres hwk]
    unfold runtimeAndMetadataProbes
    rw [if_pos]
    rw [htok, hflex]
    rfl

/-- Witness for C9: in a world under the managed runtime with both hooks
present, the hook is invoked, is non-nil, and resolution returns the
managed-runtime credentials. -/
theorem c9_app_id_hook_guarded_witness :
    gaeWorld.appengineAppIDFunc.isSome = true ∧
    applicationDefaultCredentials (Ctx.mk false) gaeWorld defaultSettings =
      Except.ok { ProjectID := gaeWorld.appengineAppIDFunc.getD "",
                  TokenSource :=
                    AppEngineTokenSource (Ctx.mk false)
                      defaultSettings.Scope,
                  JSON := none } :=
  c9_app_id_hook_guarded (Ctx.mk false) gaeWorld defaultSettings rfl rfl

/-- C10: the managed-runtime probe runs only when the token hook is
non-nil and the flex flag is off; with the flex flag set, resolution
skips it — the get-app-id hook is not invoked even though the token hook
is present — and proceeds to the metadata-service probe. -/
theorem c10_flex_skips_runtime_probe (ctx : Ctx) (w : World) (s : Settings)
    (hunset : w.env envVarName = "")
    (habsent : w.readFile (wellKnownFile w) = Except.error IOErr.notExist)
    (hpresent : w.appengineTokenFunc = some ())
    (hflex : w.appengineFlex = true) :
    appIDHookInvoked ctx w s = false ∧
    applicationDefaultCredentials ctx w s =
      (if w.onGCE then
        Except.ok { ProjectID := w.metadataProjectID.1,
                    TokenSource := ComputeTokenSource "",
                    JSON := none }
       else Except.error (Err.notFound terminalNotFoundMessage)) ∧
    (∀ ctx2 w2 s2, appIDHookInvoked ctx2 w2 s2 = true →
      w2.appengineTokenFunc.isSome = true ∧ w2.appengineFlex = false) := by
  have hrcf : readCredentialsFile ctx w (wellKnownFile w) s =
      Except.error (Err.ioFailure IOErr.notExist) := by
    unfold readCredentialsFile
    rw [habsent]
  refine ⟨?_, ?_, ?_⟩
  · unfold appIDHookInvoked
    rw [hflex]
    simp
  · rw [adc_fallthrough ctx w s (Err.ioFailure IOErr.notExist) hunset hrcf
      rfl]
    unfold runtimeAndMetadataProbes
    rw [hflex]
    simp
  · intro ctx2 w2 s2 hinv2
    unfold appIDHookInvoked at hinv2
    simp only [Bool.and_eq_true, decide_eq_true_eq] at hinv2
    obtain ⟨⟨⟨_, _⟩, htok2⟩, hflex2⟩ := hinv2
    exact ⟨htok2, by rwa [Bool.not_eq_true'] at hflex2⟩

/-- Witness for C10: the flexible-runtime world with both hooks present
but no metadata service skips the managed-runtime probe and lands on the
terminal error. -/
theorem c10_flex_skips_runtime_probe_witness :
    appIDHookInvoked (Ctx.mk false) gaeFlexWorld defaultSettings = false ∧
    applicationDefaultCredentials (Ctx.mk false) gaeFlexWorld
        defaultSettings =
      (if gaeFlexWorld.onGCE then
        Except.ok { ProjectID := gaeFlexWorld.metadataProjectID.1,
                    TokenSource := ComputeTokenSource "",
                    JSON := none }
       else Except.error (Err.notFound terminalNotFoundMessage)) ∧
    (∀ ctx2 w2 s2, appIDHookInvoked ctx2 w2 s2 = true →
      w2.appengineTokenFunc.isSome = true ∧ w2.appengineFlex = false) :=
  c10_flex_skips_runtime_probe (Ctx.mk false) gaeFlexWorld defaultSettings
    rfl rfl rfl rfl

end Sgauth
